import Mathlib

/-!
Verification of the bucket-bot savings distribution engine.

The definitions below are a shallow embedding of the TypeScript sources
`src/webhook.ts` and `src/bucket.ts`.  Numeric amounts and percentages are
modelled as exact rationals (`ℚ`), strings as Lean `String`s operated on via
their character lists (mirroring the JavaScript string primitives used by the
code), and the remote ledger store as explicit data passed to the functions
(account lists, pages of transactions, a fetch oracle indexed by retry round).
-/

namespace BucketBot

/-! ### JavaScript string primitives -/

/-- Whitespace characters recognised by the JavaScript regexp `\s` (the ASCII
ones, which are the only ones the repository's account names use). -/
def isWsChar (c : Char) : Bool :=
  c == ' ' || c == '\t' || c == '\n' || c == '\r' || c == '\x0b' || c == '\x0c'

/-- `String.prototype.trim`: strip leading and trailing whitespace. -/
def jsTrim (s : String) : String :=
  String.mk (((s.data.dropWhile isWsChar).reverse.dropWhile isWsChar).reverse)

/-- Whitespace tokenizer: the nonempty maximal runs of non-whitespace
characters.  For a trimmed nonempty string this is exactly
`str.split(/\s+/)` in JavaScript. -/
def tokensAux : List Char → List Char → List (List Char)
  | [], acc => if acc.isEmpty then [] else [acc.reverse]
  | c :: cs, acc =>
    if isWsChar c then
      if acc.isEmpty then tokensAux cs [] else acc.reverse :: tokensAux cs []
    else tokensAux cs (c :: acc)

/-- The whitespace-separated tokens of a string. -/
def wsTokens (s : String) : List String :=
  (tokensAux s.data []).map (fun l => String.mk l)

/-- ASCII uppercase conversion of one character (`String.prototype.toUpperCase`
restricted to ASCII, which is all the uppercase test needs). -/
def asciiUpperChar (c : Char) : Char :=
  if 97 ≤ c.toNat ∧ c.toNat ≤ 122 then Char.ofNat (c.toNat - 32) else c

/-- `String.prototype.toUpperCase` on ASCII data. -/
def jsToUpperAscii (s : String) : String :=
  String.mk (s.data.map asciiUpperChar)

/-- One character of the regexp class `[A-Z]`. -/
def isUpperAZChar (c : Char) : Bool :=
  65 ≤ c.toNat && c.toNat ≤ 90

/-- The regexp test `/^[A-Z]+$/`. -/
def isAllUpperAZ (s : String) : Bool :=
  !s.data.isEmpty && s.data.all isUpperAZChar

/-- `String.prototype.startsWith`. -/
def jsStartsWith (s pfx : String) : Bool :=
  pfx.data.isPrefixOf s.data

/--
`extractSuffix` from `src/webhook.ts`: split the trimmed name on whitespace;
if there are at least two parts and the last one equals its own uppercasing
and matches `/^[A-Z]+$/`, return it, else return none.  JavaScript's
`"".split(/\s+/)` returns `[""]`, reproduced by the empty-string branch.
-/
def extractSuffix (name : String) : Option String :=
  let trimmed := jsTrim name
  let parts := if trimmed.data.isEmpty then [trimmed] else wsTokens trimmed
  if parts.length < 2 then none
  else
    let lastWord := parts.getLastD ""
    if jsToUpperAscii lastWord == lastWord && isAllUpperAZ lastWord then some lastWord
    else none

/-! ### Tokenizer lemmas -/

theorem tokensAux_all_ws (w : List Char) (hw : ∀ c ∈ w, isWsChar c = true) :
    ∀ acc, tokensAux w acc = if acc.isEmpty then [] else [acc.reverse] := by
  induction w with
  | nil => intro acc; rfl
  | cons c cs ih =>
    intro acc
    have hc : isWsChar c = true := hw c (List.mem_cons_self _ _)
    have hcs : ∀ x ∈ cs, isWsChar x = true := fun x hx => hw x (List.mem_cons_of_mem _ hx)
    by_cases ha : acc.isEmpty
    · simp [tokensAux, hc, ha, ih hcs]
    · simp [tokensAux, hc, ha, ih hcs]

theorem tokensAux_append_ws (w l : List Char) (hw : ∀ c ∈ w, isWsChar c = true) :
    ∀ acc, tokensAux (l ++ w) acc = tokensAux l acc := by
  induction l with
  | nil =>
    intro acc
    simp only [List.nil_append]
    rw [tokensAux_all_ws w hw acc]
    rfl
  | cons c cs ih =>
    intro acc
    by_cases hc : isWsChar c
    · by_cases ha : acc.isEmpty
      · simp [tokensAux, hc, ha, ih]
      · simp [tokensAux, hc, ha, ih]
    · simp [tokensAux, hc, ih]

theorem tokensAux_ws_append (w l : List Char) (hw : ∀ c ∈ w, isWsChar c = true) :
    tokensAux (w ++ l) [] = tokensAux l [] := by
  induction w with
  | nil => rfl
  | cons c cs ih =>
    have hc : isWsChar c = true := hw c (List.mem_cons_self _ _)
    have hcs : ∀ x ∈ cs, isWsChar x = true := fun x hx => hw x (List.mem_cons_of_mem _ hx)
    simp [tokensAux, hc, ih hcs]

/-- Trimming does not change the whitespace tokens. -/
theorem wsTokens_jsTrim (s : String) : wsTokens (jsTrim s) = wsTokens s := by
  unfold wsTokens jsTrim
  congr 1
  set l := s.data with hl
  have h1 : l = l.takeWhile isWsChar ++ l.dropWhile isWsChar :=
    (List.takeWhile_append_dropWhile isWsChar l).symm
  set r := l.dropWhile isWsChar with hr
  have h2 : r.reverse = r.reverse.takeWhile isWsChar ++ r.reverse.dropWhile isWsChar :=
    (List.takeWhile_append_dropWhile isWsChar r.reverse).symm
  have h3 : r = (r.reverse.dropWhile isWsChar).reverse ++ (r.reverse.takeWhile isWsChar).reverse := by
    have h4 := congrArg List.reverse h2
    rw [List.reverse_reverse, List.reverse_append] at h4
    exact h4
  calc tokensAux ((l.dropWhile isWsChar).reverse.dropWhile isWsChar).reverse []
      = tokensAux (((r.reverse.dropWhile isWsChar).reverse
          ++ (r.reverse.takeWhile isWsChar).reverse)) [] := by
        rw [tokensAux_append_ws]
        intro c hc
        have := List.mem_takeWhile_imp (List.mem_reverse.mp hc)
        exact this
    _ = tokensAux r [] := by rw [← h3]
    _ = tokensAux l [] := by
        conv_rhs => rw [h1]
        rw [tokensAux_ws_append]
        intro c hc
        exact List.mem_takeWhile_imp hc

theorem isAllUpperAZ_toUpper (w : String) (h : isAllUpperAZ w = true) :
    jsToUpperAscii w = w := by
  unfold jsToUpperAscii
  unfold isAllUpperAZ at h
  rw [Bool.and_eq_true] at h
  have h2 := h.2
  rw [List.all_eq_true] at h2
  have hfix : ∀ c ∈ w.data, asciiUpperChar c = c := by
    intro c hc
    have hu := h2 c hc
    unfold isUpperAZChar at hu
    rw [Bool.and_eq_true, decide_eq_true_eq, decide_eq_true_eq] at hu
    unfold asciiUpperChar
    rw [if_neg]
    omega
  have : w.data.map asciiUpperChar = w.data := by
    calc w.data.map asciiUpperChar = w.data.map id := List.map_congr_left hfix
    _ = w.data := List.map_id w.data
  rw [this]

/--
**C6.** `extractSuffix` returns the last whitespace-separated token exactly when
the name has two or more tokens and that last token consists solely of
uppercase ASCII letters; every other name (empty, single-token, last token not
purely uppercase) yields none.
-/
theorem extractSuffix_spec (name t : String) :
    extractSuffix name = some t ↔
      2 ≤ (wsTokens name).length ∧ (wsTokens name).getLast? = some t
        ∧ isAllUpperAZ t = true := by
  have key : wsTokens (jsTrim name) = wsTokens name := wsTokens_jsTrim name
  unfold extractSuffix
  by_cases he : (jsTrim name).data.isEmpty
  · have hdata : (jsTrim name).data = [] := by simpa using he
    have hw : wsTokens name = [] := by
      rw [← key]; unfold wsTokens; rw [hdata]; rfl
    simp [he, hw]
  · simp only [he, if_false, Bool.false_eq_true]
    by_cases hlen : (wsTokens (jsTrim name)).length < 2
    · rw [key] at hlen
      rw [if_pos (key ▸ hlen)]
      constructor
      · intro h; exact absurd h (by simp)
      · intro h; omega
    · rw [key] at hlen
      rw [if_neg (by rw [key]; exact hlen)]
      have hlen2 : 2 ≤ (wsTokens name).length := by omega
      have hne : wsTokens name ≠ [] := by
        intro h; rw [h] at hlen2; simp at hlen2
      obtain ⟨x, hx⟩ : ∃ x, (wsTokens name).getLast? = some x := by
        cases h : (wsTokens name).getLast? with
        | none => exact absurd (List.getLast?_eq_none_iff.mp h) hne
        | some x => exact ⟨x, rfl⟩
      have hlastD : (wsTokens (jsTrim name)).getLastD "" = x := by
        rw [key, List.getLastD_eq_getLast?, hx]; rfl
      rw [hlastD]
      by_cases hcond : (jsToUpperAscii x == x && isAllUpperAZ x) = true
      · rw [if_pos hcond]
        rw [Bool.and_eq_true] at hcond
        constructor
        · intro h
          have hxt : x = t := by simpa using h
          exact ⟨hlen2, hxt ▸ hx, hxt ▸ hcond.2⟩
        · intro ⟨_, h2, _⟩
          rw [hx] at h2
          simpa using h2
      · rw [if_neg hcond]
        constructor
        · intro h; exact absurd h (by simp)
        · intro ⟨_, h2, h3⟩
          rw [hx] at h2
          have hxt : x = t := by simpa using h2
          apply absurd _ hcond
          rw [Bool.and_eq_true]
          refine ⟨?_, hxt ▸ h3⟩
          have := isAllUpperAZ_toUpper x (hxt ▸ h3)
          simp [this]

/-! ### Account and book model -/

/-- Account types of the ledger platform. -/
inductive AccountType
  | ASSET
  | LIABILITY
  | INCOMING
  | OUTGOING
deriving DecidableEq, BEq, Repr

/-- An account as the engine reads it: name, normalized name, type, the
`percentage` and `savings` properties (absent or their parsed value), the
names of the groups it belongs to, and its cumulative balance as reported by
the platform's balance query. -/
structure BAccount where
  name : String
  normalizedName : String
  type : AccountType
  percentage : Option ℚ
  savings : Option String
  groups : List String
  balance : ℚ
deriving DecidableEq, Repr

/-- Result of `validatePercentages` (`src/bucket.ts`). -/
structure PercentageValidationResult where
  isValid : Bool
  totalPercentage : ℚ
  accountCount : Nat
deriving DecidableEq, Repr

/-- Result of `validateBalances` (`src/bucket.ts`). -/
structure ValidationResult where
  isBalanced : Bool
  glTotal : ℚ
  bucketTotal : ℚ
  difference : ℚ
deriving DecidableEq, Repr

/--
`validatePercentages` from `src/bucket.ts`: walk all accounts of the bucket
book, skip non-asset accounts and accounts without a `percentage` property,
accumulate the sum and the contributing count, and require the sum to be
exactly 100.  `vpStep` is one iteration of the loop body.
-/
def vpStep (st : ℚ × Nat) (account : BAccount) : ℚ × Nat :=
  if account.type = AccountType.ASSET then
    match account.percentage with
    | none => st
    | some p => (st.1 + p, st.2 + 1)
  else st

def validatePercentages (accounts : List BAccount) : PercentageValidationResult :=
  let r := accounts.foldl vpStep (0, 0)
  { isValid := decide (r.1 = 100), totalPercentage := r.1, accountCount := r.2 }

/-- The accounts that contribute to the percentage sum: asset accounts
carrying a `percentage` property. -/
def contributesPercentage (account : BAccount) : Bool :=
  decide (account.type = AccountType.ASSET) && account.percentage.isSome

theorem vpStep_pos (st : ℚ × Nat) (a : BAccount) (hc : contributesPercentage a = true) :
    vpStep st a = (st.1 + a.percentage.getD 0, st.2 + 1) := by
  unfold contributesPercentage at hc
  rw [Bool.and_eq_true, decide_eq_true_eq] at hc
  obtain ⟨ht, hp⟩ := hc
  obtain ⟨p, hp⟩ := Option.isSome_iff_exists.mp hp
  unfold vpStep
  rw [if_pos ht, hp]
  rfl

theorem vpStep_neg (st : ℚ × Nat) (a : BAccount) (hc : contributesPercentage a = false) :
    vpStep st a = st := by
  unfold contributesPercentage at hc
  unfold vpStep
  by_cases ht : a.type = AccountType.ASSET
  · rw [if_pos ht]
    cases hp : a.percentage with
    | none => rfl
    | some p => rw [ht, hp] at hc; simp at hc
  · rw [if_neg ht]

theorem validatePercentages_foldl (accounts : List BAccount) :
    ∀ s n, accounts.foldl vpStep (s, n)
    = (s + ((accounts.filter contributesPercentage).map
          (fun a => a.percentage.getD 0)).sum,
       n + (accounts.filter contributesPercentage).length) := by
  induction accounts with
  | nil => intro s n; simp
  | cons a rest ih =>
    intro s n
    rw [List.foldl_cons]
    by_cases hc : contributesPercentage a = true
    · rw [vpStep_pos (s, n) a hc, ih, List.filter_cons_of_pos hc]
      simp only [List.map_cons, List.sum_cons, List.length_cons]
      rw [Prod.mk.injEq]
      constructor
      · ring
      · omega
    · rw [vpStep_neg (s, n) a (Bool.not_eq_true _ ▸ hc), ih,
        List.filter_cons_of_neg (by simpa using hc)]

/--
**C9.** `validatePercentages` sums the `percentage` property over exactly the
asset accounts that carry one, reports `isValid` exactly when that sum is 100
(no tolerance), and reports `accountCount` as the number of contributing
accounts.
-/
theorem validatePercentages_spec (accounts : List BAccount) :
    (validatePercentages accounts).totalPercentage
        = ((accounts.filter contributesPercentage).map
            (fun a => a.percentage.getD 0)).sum
    ∧ (validatePercentages accounts).accountCount
        = (accounts.filter contributesPercentage).length
    ∧ ((validatePercentages accounts).isValid = true ↔
        ((accounts.filter contributesPercentage).map
            (fun a => a.percentage.getD 0)).sum = 100) := by
  unfold validatePercentages
  rw [validatePercentages_foldl accounts 0 0]
  refine ⟨by simp, by simp, ?_⟩
  simp

/-- `getGlSavingsTotal` from `src/bucket.ts`: sum of the cumulative balances
of the GL accounts carrying `savings:"true"` (0 when there are none). -/
def getGlSavingsTotal (accounts : List BAccount) : ℚ :=
  ((accounts.filter (fun a => a.savings == some "true")).map (fun a => a.balance)).sum

/-- `getBucketTotal` from `src/bucket.ts`: sum of the cumulative balances of
the bucket-book asset accounts carrying a `percentage` property. -/
def getBucketTotal (accounts : List BAccount) : ℚ :=
  ((accounts.filter (fun a =>
      decide (a.type = AccountType.ASSET) && a.percentage.isSome)).map
    (fun a => a.balance)).sum

/-- The fixed absolute tolerance `BALANCE_TOLERANCE = 0.01`. -/
def BALANCE_TOLERANCE : ℚ := 1 / 100

/--
`validateBalances` from `src/bucket.ts`: `difference = glTotal - bucketTotal`,
balanced exactly when `abs(difference) < 0.01`.
-/
def validateBalances (glAccounts bucketAccounts : List BAccount) : ValidationResult :=
  { isBalanced := decide
      (|getGlSavingsTotal glAccounts - getBucketTotal bucketAccounts| < BALANCE_TOLERANCE),
    glTotal := getGlSavingsTotal glAccounts,
    bucketTotal := getBucketTotal bucketAccounts,
    difference := getGlSavingsTotal glAccounts - getBucketTotal bucketAccounts }

/-- A GL savings account with a given balance, for the concrete scenarios. -/
def glAccountWithBalance (b : ℚ) : BAccount :=
  { name := "RDB LONG", normalizedName := "rdb_long", type := AccountType.ASSET,
    percentage := none, savings := some "true", groups := [], balance := b }

/-- A bucket asset account with a percentage and a given balance. -/
def bucketAccountWithBalance (b : ℚ) : BAccount :=
  { name := "Car LONG", normalizedName := "car_long", type := AccountType.ASSET,
    percentage := some 60, savings := none, groups := [], balance := b }

/--
**C8.** `validateBalances` reports `difference = glTotal - bucketTotal` and
`isBalanced` exactly when `|difference| < 0.01`; a GL total of 1000.00 against
a bucket total of 1000.005 is balanced, and 1000 against 800 is unbalanced
with difference 200.
-/
theorem validateBalances_spec (glAccounts bucketAccounts : List BAccount) :
    ((validateBalances glAccounts bucketAccounts).difference
        = getGlSavingsTotal glAccounts - getBucketTotal bucketAccounts)
    ∧ ((validateBalances glAccounts bucketAccounts).isBalanced = true ↔
        |getGlSavingsTotal glAccounts - getBucketTotal bucketAccounts| < 1 / 100)
    ∧ (validateBalances [glAccountWithBalance 1000]
        [bucketAccountWithBalance (1000 + 5 / 1000)]).isBalanced = true
    ∧ (validateBalances [glAccountWithBalance 1000]
        [bucketAccountWithBalance 800]).isBalanced = false
    ∧ (validateBalances [glAccountWithBalance 1000]
        [bucketAccountWithBalance 800]).difference = 200 := by
  refine ⟨rfl, ?_, ?_, ?_, ?_⟩
  · unfold validateBalances BALANCE_TOLERANCE
    simp
  ·
    have h1 : getGlSavingsTotal [glAccountWithBalance 1000] = 1000 := by
      unfold getGlSavingsTotal glAccountWithBalance
      norm_num
    have h2 : getBucketTotal [bucketAccountWithBalance (1000 + 5 / 1000)]
        = 1000 + 5 / 1000 := by
      unfold getBucketTotal bucketAccountWithBalance
      norm_num
    unfold validateBalances
    rw [h1, h2]
    unfold BALANCE_TOLERANCE
    rw [decide_eq_true_eq]
    rw [show (1000 : ℚ) - (1000 + 5 / 1000) = -(5 / 1000) by ring, abs_neg]
    rw [abs_of_pos (by norm_num)]
    norm_num
  · have h1 : getGlSavingsTotal [glAccountWithBalance 1000] = 1000 := by
      unfold getGlSavingsTotal glAccountWithBalance
      norm_num
    have h2 : getBucketTotal [bucketAccountWithBalance 800] = 800 := by
      unfold getBucketTotal bucketAccountWithBalance
      norm_num
    unfold validateBalances
    rw [h1, h2]
    unfold BALANCE_TOLERANCE
    rw [show (1000 : ℚ) - 800 = 200 by ring]
    rw [abs_of_pos (by norm_num)]
    norm_num
  · have h1 : getGlSavingsTotal [glAccountWithBalance 1000] = 1000 := by
      unfold getGlSavingsTotal glAccountWithBalance
      norm_num
    have h2 : getBucketTotal [bucketAccountWithBalance 800] = 800 := by
      unfold getBucketTotal bucketAccountWithBalance
      norm_num
    unfold validateBalances
    rw [h1, h2]
    norm_num

/-! ### Savings context and distribution results -/

/-- Transfer direction of a savings transaction. -/
inductive Direction
  | deposit
  | withdrawal
deriving DecidableEq, Repr

/-- The `SavingsContext` value object (`src/types.ts`), with the amount held
as the parsed rational value of the decimal string. -/
structure SavingsContext where
  bucketBookId : String
  bucketHashtag : Option String
  bucketIncomeAcc : String
  bucketWithdrawalAcc : String
  amount : ℚ
  transactionId : String
  description : String
  date : String
  fromAccount : String
  toAccount : String
  bucketOverride : Option String
  direction : Direction
  suffix : Option String
  savingsAccountName : String
  savingsAccountId : String
  savingsAccountNormalizedName : String
  savingsGroupName : Option String
  isInitialization : Bool
deriving DecidableEq, Repr

/-- A bucket-side entry created by a distribution strategy: the bucket account
it targets and its amount. -/
structure Entry where
  account : BAccount
  amount : ℚ
deriving DecidableEq, Repr

/-- The `DistributionResult` record (`src/bucket.ts`). -/
structure DistributionResult where
  success : Bool
  transactionCount : Nat
  totalDistributed : ℚ
  skipped : Option Bool
  error : Option String
  transactions : Option (List Entry)
deriving Repr

/-- JavaScript truthiness of an optional string: undefined and the empty
string are falsy. -/
def truthy : Option String → Option String
  | none => none
  | some s => if s.data.isEmpty then none else some s

/-- `String.prototype.split(",")`: split at every comma, keeping empty
segments. -/
def splitCommaAux : List Char → List Char → List (List Char)
  | [], acc => [acc.reverse]
  | c :: cs, acc =>
    if c = ',' then acc.reverse :: splitCommaAux cs []
    else splitCommaAux cs (c :: acc)

def jsSplitComma (s : String) : List String :=
  (splitCommaAux s.data []).map (fun l => String.mk l)

/-- `Array.prototype.flatten(", ")`. -/
def joinComma : List String → String
  | [] => ""
  | [x] => x
  | x :: xs => x ++ ", " ++ joinComma xs

/-- `Book.getAccount(name)`: look an account up by exact name. -/
def getAccountByName (accounts : List BAccount) (name : String) : Option BAccount :=
  accounts.find? (fun a => a.name == name)

/--
`distributeToOverrideBuckets` from `src/bucket.ts`: parse the comma-separated
override list, trim each name, look each up by exact name; if any are missing
fail with a message joining all missing names and create nothing; otherwise
split the amount equally.
-/
def distributeToOverrideBuckets (accounts : List BAccount) (ctx : SavingsContext) :
    DistributionResult :=
  match truthy ctx.bucketOverride with
  | none =>
    { success := false, transactionCount := 0, totalDistributed := 0,
      skipped := none, error := some "No bucket override provided",
      transactions := none }
  | some ov =>
    let accountNames := (jsSplitComma ov).map jsTrim
    let bucketAccounts := accountNames.filterMap (fun n => getAccountByName accounts n)
    let missingAccounts := accountNames.filter (fun n => (getAccountByName accounts n).isNone)
    if missingAccounts.isEmpty then
      let amount := ctx.amount * ((100 / (bucketAccounts.length : ℚ)) / 100)
      let entries := bucketAccounts.map (fun a => ({ account := a, amount := amount } : Entry))
      { success := true, transactionCount := entries.length,
        totalDistributed := (entries.map (fun e => e.amount)).sum,
        skipped := none, error := none, transactions := some entries }
    else
      { success := false, transactionCount := 0, totalDistributed := 0,
        skipped := none,
        error := some ("Accounts not found: " ++ joinComma missingAccounts),
        transactions := none }

/-- Every element of a list is an infix of its comma-join. -/
theorem mem_joinComma_infix (l : List String) (m : String) (hm : m ∈ l) :
    m.data <:+: (joinComma l).data := by
  induction l with
  | nil => cases hm
  | cons x xs ih =>
    cases xs with
    | nil =>
      have hx : m = x := by
        cases hm with
        | head => rfl
        | tail _ h => cases h
      rw [hx]
      exact List.infix_refl _
    | cons y ys =>
      cases hm with
      | head =>
        refine ⟨[], (", " ++ joinComma (y :: ys)).data, ?_⟩
        show m.data ++ _ = (m ++ ", " ++ joinComma (y :: ys)).data
        rw [String.data_append, String.data_append]
        simp
      | tail _ h =>
        obtain ⟨s, t, hst⟩ := ih h
        refine ⟨(x ++ ", ").data ++ s, t, ?_⟩
        show (x ++ ", ").data ++ s ++ m.data ++ t = (x ++ ", " ++ joinComma (y :: ys)).data
        rw [String.data_append, String.data_append, ← hst]
        simp

/--
**C5.** When the override names at least one account that does not exist,
`distributeToOverrideBuckets` fails, creates no entries, and its error message
contains every missing name.
-/
theorem overrideDistribution_missing (accounts : List BAccount) (ctx : SavingsContext)
    (ov : String) (hov : ctx.bucketOverride = some ov) (hne : ov.data.isEmpty = false)
    (hmiss : ∃ n ∈ (jsSplitComma ov).map jsTrim, getAccountByName accounts n = none) :
    (distributeToOverrideBuckets accounts ctx).success = false
    ∧ (distributeToOverrideBuckets accounts ctx).transactionCount = 0
    ∧ (distributeToOverrideBuckets accounts ctx).totalDistributed = 0
    ∧ (distributeToOverrideBuckets accounts ctx).transactions = none
    ∧ ∃ msg, (distributeToOverrideBuckets accounts ctx).error = some msg
        ∧ ∀ n ∈ (jsSplitComma ov).map jsTrim,
            getAccountByName accounts n = none → n.data <:+: msg.data := by
  have htr : truthy (some ov) = some ov := by
    show (if ov.data.isEmpty = true then none else some ov) = some ov
    rw [hne]
    rfl
  have hmE : (((jsSplitComma ov).map jsTrim).filter
      (fun n => (getAccountByName accounts n).isNone)).isEmpty = false := by
    obtain ⟨n, hn, hnone⟩ := hmiss
    have hmem : n ∈ ((jsSplitComma ov).map jsTrim).filter
        (fun n => (getAccountByName accounts n).isNone) :=
      List.mem_filter.mpr ⟨hn, by simp [hnone]⟩
    cases h : ((jsSplitComma ov).map jsTrim).filter
        (fun n => (getAccountByName accounts n).isNone) with
    | nil => rw [h] at hmem; cases hmem
    | cons a l => rfl
  have hres : distributeToOverrideBuckets accounts ctx =
      { success := false, transactionCount := 0, totalDistributed := 0,
        skipped := none,
        error := some ("Accounts not found: " ++ joinComma
          (((jsSplitComma ov).map jsTrim).filter
            (fun n => (getAccountByName accounts n).isNone))),
        transactions := none } := by
    unfold distributeToOverrideBuckets
    rw [hov, htr]
    simp only [hmE, Bool.false_eq_true, if_false]
  refine ⟨by rw [hres], by rw [hres], by rw [hres], by rw [hres], ?_⟩
  refine ⟨"Accounts not found: " ++ joinComma
      (((jsSplitComma ov).map jsTrim).filter
        (fun n => (getAccountByName accounts n).isNone)), by rw [hres], ?_⟩
  intro n hn hnone
  have hmem : n ∈ ((jsSplitComma ov).map jsTrim).filter
      (fun n => (getAccountByName accounts n).isNone) :=
    List.mem_filter.mpr ⟨hn, by simp [hnone]⟩
  obtain ⟨s, t, hst⟩ := mem_joinComma_infix _ n hmem
  refine ⟨("Accounts not found: ").data ++ s, t, ?_⟩
  rw [String.data_append, ← hst]
  simp

/-- The bucket book used by the concrete override scenario: a single account
`Car LONG`. -/
def ovAccounts : List BAccount :=
  [{ name := "Car LONG", normalizedName := "car_long", type := AccountType.ASSET,
     percentage := some 60, savings := none, groups := [], balance := 0 }]

/-- A savings context whose override names two accounts that do not exist. -/
def ovCtx : SavingsContext :=
  { bucketBookId := "bb", bucketHashtag := none, bucketIncomeAcc := "Savings",
    bucketWithdrawalAcc := "Withdrawal", amount := 100, transactionId := "TX1",
    description := "d", date := "2026-01-01", fromAccount := "A", toAccount := "B",
    bucketOverride := some "Car LONG, Boat, Plane", direction := Direction.deposit,
    suffix := none, savingsAccountName := "RDB LONG", savingsAccountId := "id1",
    savingsAccountNormalizedName := "rdb_long", savingsGroupName := none,
    isInitialization := false }

/-- Witness for C5 at a concrete input: override `Car LONG, Boat, Plane`
against a book holding only `Car LONG`. -/
theorem overrideDistribution_missing_witness :
    (distributeToOverrideBuckets ovAccounts ovCtx).success = false
    ∧ (distributeToOverrideBuckets ovAccounts ovCtx).transactionCount = 0
    ∧ (distributeToOverrideBuckets ovAccounts ovCtx).totalDistributed = 0
    ∧ (distributeToOverrideBuckets ovAccounts ovCtx).transactions = none
    ∧ ∃ msg, (distributeToOverrideBuckets ovAccounts ovCtx).error = some msg
        ∧ ∀ n ∈ (jsSplitComma "Car LONG, Boat, Plane").map jsTrim,
            getAccountByName ovAccounts n = none → n.data <:+: msg.data :=
  overrideDistribution_missing ovAccounts ovCtx "Car LONG, Boat, Plane" rfl (by decide)
    ⟨"Boat", by decide, by decide⟩

/-! ### Suffix-filtered distribution -/

/--
`accountMatchesSuffix` from `src/bucket.ts`: the account's own name yields the
suffix, or one of its groups' names does.
-/
def accountMatchesSuffix (account : BAccount) (sfx : String) : Bool :=
  extractSuffix account.name == some sfx
    || account.groups.any (fun g => extractSuffix g == some sfx)

/-- The target set of suffix distribution: asset accounts with a `percentage`
property that match the suffix (the loop filter in `distributeToSuffixBuckets`). -/
def suffixTargets (accounts : List BAccount) (sfx : String) : List BAccount :=
  accounts.filter (fun a =>
    decide (a.type = AccountType.ASSET) && a.percentage.isSome
      && accountMatchesSuffix a sfx)

/-- The matched accounts paired with their original percentages
(`matchingAccounts` in the source). -/
def suffixMatching (accounts : List BAccount) (sfx : String) : List (BAccount × ℚ) :=
  (suffixTargets accounts sfx).map (fun a => (a, a.percentage.getD 0))

/-- `sumOfOriginal` in the source. -/
def sumOfOriginal (accounts : List BAccount) (sfx : String) : ℚ :=
  ((suffixMatching accounts sfx).map (fun p => p.2)).sum

/-! #### JavaScript number semantics for the renormalizing arithmetic

The renormalization divides each matched percentage by the sum of the matched
percentages.  When that sum is zero JavaScript yields `NaN` (`0/0`) or a
signed infinity (`p/0` for `p ≠ 0`) and propagates it: `Math.abs(NaN) >
0.0001` is false so no residual is folded, and every entry amount ends up
non-finite instead of reconciling.  To stay faithful there, the value
pipeline below runs over `JNum`: `NaN`, the two infinities, or an exact
rational (exact arithmetic on the finite side, as elsewhere in this
development). -/

inductive JNum
  | nan
  | pinf
  | ninf
  | num (q : ℚ)
deriving DecidableEq, Repr

/-- JavaScript addition. -/
def jadd : JNum → JNum → JNum
  | JNum.nan, _ => JNum.nan
  | _, JNum.nan => JNum.nan
  | JNum.pinf, JNum.ninf => JNum.nan
  | JNum.ninf, JNum.pinf => JNum.nan
  | JNum.pinf, _ => JNum.pinf
  | _, JNum.pinf => JNum.pinf
  | JNum.ninf, _ => JNum.ninf
  | _, JNum.ninf => JNum.ninf
  | JNum.num a, JNum.num b => JNum.num (a + b)

/-- JavaScript subtraction. -/
def jsub : JNum → JNum → JNum
  | JNum.nan, _ => JNum.nan
  | _, JNum.nan => JNum.nan
  | JNum.pinf, JNum.pinf => JNum.nan
  | JNum.ninf, JNum.ninf => JNum.nan
  | JNum.pinf, _ => JNum.pinf
  | JNum.ninf, _ => JNum.ninf
  | _, JNum.pinf => JNum.ninf
  | _, JNum.ninf => JNum.pinf
  | JNum.num a, JNum.num b => JNum.num (a - b)

/-- JavaScript multiplication (`Infinity * 0 = NaN`, sign rules otherwise). -/
def jmul : JNum → JNum → JNum
  | JNum.nan, _ => JNum.nan
  | _, JNum.nan => JNum.nan
  | JNum.pinf, JNum.pinf => JNum.pinf
  | JNum.pinf, JNum.ninf => JNum.ninf
  | JNum.ninf, JNum.pinf => JNum.ninf
  | JNum.ninf, JNum.ninf => JNum.pinf
  | JNum.pinf, JNum.num b =>
    if b = 0 then JNum.nan else if 0 < b then JNum.pinf else JNum.ninf
  | JNum.ninf, JNum.num b =>
    if b = 0 then JNum.nan else if 0 < b then JNum.ninf else JNum.pinf
  | JNum.num a, JNum.pinf =>
    if a = 0 then JNum.nan else if 0 < a then JNum.pinf else JNum.ninf
  | JNum.num a, JNum.ninf =>
    if a = 0 then JNum.nan else if 0 < a then JNum.ninf else JNum.pinf
  | JNum.num a, JNum.num b => JNum.num (a * b)

/-- JavaScript division (`0/0 = NaN`, `p/0 = ±Infinity` for `p ≠ 0`,
`finite/Infinity = 0`). -/
def jdiv : JNum → JNum → JNum
  | JNum.nan, _ => JNum.nan
  | _, JNum.nan => JNum.nan
  | JNum.pinf, JNum.pinf => JNum.nan
  | JNum.pinf, JNum.ninf => JNum.nan
  | JNum.ninf, JNum.pinf => JNum.nan
  | JNum.ninf, JNum.ninf => JNum.nan
  | JNum.pinf, JNum.num b => if 0 ≤ b then JNum.pinf else JNum.ninf
  | JNum.ninf, JNum.num b => if 0 ≤ b then JNum.ninf else JNum.pinf
  | JNum.num _, JNum.pinf => JNum.num 0
  | JNum.num _, JNum.ninf => JNum.num 0
  | JNum.num a, JNum.num b =>
    if b = 0 then
      if a = 0 then JNum.nan else if 0 < a then JNum.pinf else JNum.ninf
    else JNum.num (a / b)

/-- `Math.abs`. -/
def jabs : JNum → JNum
  | JNum.nan => JNum.nan
  | JNum.pinf => JNum.pinf
  | JNum.ninf => JNum.pinf
  | JNum.num a => JNum.num |a|

/-- The JavaScript comparison `a > b` (false whenever `NaN` is involved). -/
def jgt : JNum → JNum → Bool
  | JNum.nan, _ => false
  | _, JNum.nan => false
  | JNum.pinf, JNum.pinf => false
  | JNum.pinf, _ => true
  | JNum.ninf, _ => false
  | JNum.num _, JNum.pinf => false
  | JNum.num _, JNum.ninf => true
  | JNum.num a, JNum.num b => decide (b < a)

/-- `Array.prototype.reduce((sum, x) => sum + x, 0)` over JavaScript
numbers. -/
def jsum (l : List JNum) : JNum :=
  l.foldl jadd (JNum.num 0)

/-- `recalculatedAccounts` in the source: renormalize each percentage to
`original / sum * 100`, in JavaScript arithmetic (`sumOfOriginal` is the
exact value of the source reduce over the matched percentages, which are all
finite). -/
def recalculatedAccounts (accounts : List BAccount) (sfx : String) :
    List (BAccount × JNum) :=
  (suffixMatching accounts sfx).map
    (fun p => (p.1,
      jmul (jdiv (JNum.num p.2) (JNum.num (sumOfOriginal accounts sfx)))
        (JNum.num 100)))

/-- `sumRecalculated` in the source. -/
def sumRecalculated (accounts : List BAccount) (sfx : String) : JNum :=
  jsum ((recalculatedAccounts accounts sfx).map (fun p => p.2))

/-- The rounding-residual correction of the source: when the residual exceeds
`1e-4` in magnitude (a comparison that is false for `NaN`) it is added to the
first account's share. -/
def foldResidualIntoFirst (l : List (BAccount × JNum)) (r : JNum) :
    List (BAccount × JNum) :=
  if jgt (jabs r) (JNum.num (1 / 10000)) then
    match l with
    | [] => []
    | (a, p) :: rest => (a, jadd p r) :: rest
  else l

/-- The recalculated percentages after the residual correction. -/
def adjustedAccounts (accounts : List BAccount) (sfx : String) :
    List (BAccount × JNum) :=
  foldResidualIntoFirst (recalculatedAccounts accounts sfx)
    (jsub (JNum.num 100) (sumRecalculated accounts sfx))

/-- An entry posted by suffix distribution: the bucket account and the
JavaScript-number amount. -/
structure JEntry where
  account : BAccount
  amount : JNum
deriving DecidableEq, Repr

/-- The `DistributionResult` record as produced by suffix distribution, whose
amounts live in JavaScript arithmetic. -/
structure JDistributionResult where
  success : Bool
  transactionCount : Nat
  totalDistributed : JNum
  skipped : Option Bool
  error : Option String
  transactions : Option (List JEntry)
deriving DecidableEq, Repr

/-- The entries posted by suffix distribution: one per adjusted account, with
amount `totalAmount * (percentage / 100)`. -/
def suffixEntries (accounts : List BAccount) (sfx : String) (totalAmount : ℚ) :
    List JEntry :=
  (adjustedAccounts accounts sfx).map
    (fun p => JEntry.mk p.1 (jmul (JNum.num totalAmount) (jdiv p.2 (JNum.num 100))))

/--
`distributeToSuffixBuckets` from `src/bucket.ts`: fail without a suffix, fail
when nothing matches, else renormalize the matched percentages to 100, fold
any residual into the first account, and post one entry per matched account.
-/
def distributeToSuffixBuckets (accounts : List BAccount) (ctx : SavingsContext) :
    JDistributionResult :=
  match truthy ctx.suffix with
  | none =>
    { success := false, transactionCount := 0, totalDistributed := JNum.num 0,
      skipped := none, error := some "No suffix provided", transactions := none }
  | some sfx =>
    if (suffixMatching accounts sfx).isEmpty then
      { success := false, transactionCount := 0, totalDistributed := JNum.num 0,
        skipped := none,
        error := some ("No accounts match suffix " ++ sfx ++ " in bucket book"),
        transactions := none }
    else
      { success := true,
        transactionCount := (suffixEntries accounts sfx ctx.amount).length,
        totalDistributed :=
          jsum ((suffixEntries accounts sfx ctx.amount).map (fun e => e.amount)),
        skipped := none, error := none,
        transactions := some (suffixEntries accounts sfx ctx.amount) }

/-! #### Finite-side evaluation lemmas -/

theorem jadd_num (a b : ℚ) : jadd (JNum.num a) (JNum.num b) = JNum.num (a + b) := rfl

theorem jsub_num (a b : ℚ) : jsub (JNum.num a) (JNum.num b) = JNum.num (a - b) := rfl

theorem jmul_num (a b : ℚ) : jmul (JNum.num a) (JNum.num b) = JNum.num (a * b) := rfl

theorem jdiv_num (a b : ℚ) (hb : b ≠ 0) :
    jdiv (JNum.num a) (JNum.num b) = JNum.num (a / b) := by
  show (if b = 0 then
      if a = 0 then JNum.nan else if 0 < a then JNum.pinf else JNum.ninf
    else JNum.num (a / b)) = JNum.num (a / b)
  rw [if_neg hb]

theorem jfoldl_num (l : List ℚ) :
    ∀ a : ℚ, (l.map JNum.num).foldl jadd (JNum.num a) = JNum.num (a + l.sum) := by
  induction l with
  | nil => intro a; simp
  | cons p rest ih =>
    intro a
    rw [List.map_cons, List.foldl_cons, jadd_num, ih (a + p), List.sum_cons]
    congr 1
    ring

theorem jsum_map_num (l : List ℚ) : jsum (l.map JNum.num) = JNum.num l.sum := by
  unfold jsum
  rw [jfoldl_num l 0, zero_add]

theorem sum_map_div_mul (l : List ℚ) (S : ℚ) :
    (l.map (fun p => p / S * 100)).sum = l.sum / S * 100 := by
  induction l with
  | nil => simp
  | cons p rest ih =>
    simp only [List.map_cons, List.sum_cons, ih]
    ring

theorem sum_map_mul_div (l : List ℚ) (S A : ℚ) :
    (l.map (fun q => A * (q / S))).sum = A * (l.sum / S) := by
  induction l with
  | nil => simp
  | cons p rest ih =>
    simp only [List.map_cons, List.sum_cons, ih]
    ring

theorem recalculatedAccounts_num (accounts : List BAccount) (sfx : String)
    (hsum : sumOfOriginal accounts sfx ≠ 0) :
    recalculatedAccounts accounts sfx
      = (suffixMatching accounts sfx).map
          (fun p => (p.1, JNum.num (p.2 / sumOfOriginal accounts sfx * 100))) := by
  unfold recalculatedAccounts
  apply List.map_congr_left
  intro p _
  rw [jdiv_num p.2 (sumOfOriginal accounts sfx) hsum, jmul_num]

theorem sumRecalculated_eq (accounts : List BAccount) (sfx : String)
    (hsum : sumOfOriginal accounts sfx ≠ 0) :
    sumRecalculated accounts sfx = JNum.num 100 := by
  unfold sumRecalculated
  rw [recalculatedAccounts_num accounts sfx hsum, List.map_map]
  rw [show ((fun p : BAccount × JNum => p.2) ∘ fun p : BAccount × ℚ =>
      (p.1, JNum.num (p.2 / sumOfOriginal accounts sfx * 100)))
      = JNum.num ∘ (fun p : BAccount × ℚ => p.2 / sumOfOriginal accounts sfx * 100)
      from rfl]
  rw [← List.map_map, jsum_map_num]
  congr 1
  rw [show (fun p : BAccount × ℚ => p.2 / sumOfOriginal accounts sfx * 100)
      = (fun q : ℚ => q / sumOfOriginal accounts sfx * 100)
        ∘ (fun p : BAccount × ℚ => p.2) from rfl]
  rw [← List.map_map, sum_map_div_mul]
  show sumOfOriginal accounts sfx / sumOfOriginal accounts sfx * 100 = 100
  rw [div_self hsum]
  norm_num

theorem adjustedAccounts_eq (accounts : List BAccount) (sfx : String)
    (hsum : sumOfOriginal accounts sfx ≠ 0) :
    adjustedAccounts accounts sfx = recalculatedAccounts accounts sfx := by
  unfold adjustedAccounts
  rw [sumRecalculated_eq accounts sfx hsum, jsub_num]
  have h0 : (100 : ℚ) - 100 = 0 := by norm_num
  rw [h0]
  have hc : jgt (jabs (JNum.num 0)) (JNum.num (1 / 10000)) = false := by
    show decide ((1 : ℚ) / 10000 < |(0 : ℚ)|) = false
    rw [decide_eq_false_iff_not]
    rw [abs_zero]
    norm_num
  unfold foldResidualIntoFirst
  simp only [hc, Bool.false_eq_true, if_false]

/--
**C1 (amended).** For a context whose suffix matches K ≥ 1 bucket accounts
whose percentages do not sum to zero, `distributeToSuffixBuckets` creates
exactly K entries, one per matched account and none for any other account,
whose amounts sum exactly to the context amount (which is also the reported
`totalDistributed`); a residual above `1e-4` in magnitude would be folded
entirely into the first matched account's share.  When the matched
percentages sum to zero the renormalizing division is `0/0 = NaN` and the
amounts do not reconcile (see the counterexample).
-/
theorem suffixDistribution_amended (accounts : List BAccount) (ctx : SavingsContext)
    (sfx : String) (hsfx : ctx.suffix = some sfx) (hne : sfx.data.isEmpty = false)
    (hK : suffixTargets accounts sfx ≠ [])
    (hsum : sumOfOriginal accounts sfx ≠ 0) :
    (distributeToSuffixBuckets accounts ctx).success = true
    ∧ (distributeToSuffixBuckets accounts ctx).totalDistributed
        = JNum.num ctx.amount
    ∧ (∃ entries, (distributeToSuffixBuckets accounts ctx).transactions = some entries
        ∧ entries.length = (suffixTargets accounts sfx).length
        ∧ entries.map (fun e => e.account) = suffixTargets accounts sfx
        ∧ (∀ a : BAccount, a ∉ suffixTargets accounts sfx →
            a ∉ entries.map (fun e => e.account))
        ∧ jsum (entries.map (fun e => e.amount)) = JNum.num ctx.amount)
    ∧ (∀ (a : BAccount) (p r : JNum) (rest : List (BAccount × JNum)),
        jgt (jabs r) (JNum.num (1 / 10000)) = true →
        foldResidualIntoFirst ((a, p) :: rest) r = (a, jadd p r) :: rest) := by
  have htr : truthy (some sfx) = some sfx := by
    show (if sfx.data.isEmpty = true then none else some sfx) = some sfx
    rw [hne]
    rfl
  have hMne : (suffixMatching accounts sfx).isEmpty = false := by
    unfold suffixMatching
    cases h : suffixTargets accounts sfx with
    | nil => exact absurd h hK
    | cons a l => rfl
  have hAdj := adjustedAccounts_eq accounts sfx hsum
  have hres : distributeToSuffixBuckets accounts ctx =
      { success := true,
        transactionCount := (suffixEntries accounts sfx ctx.amount).length,
        totalDistributed :=
          jsum ((suffixEntries accounts sfx ctx.amount).map (fun e => e.amount)),
        skipped := none, error := none,
        transactions := some (suffixEntries accounts sfx ctx.amount) } := by
    unfold distributeToSuffixBuckets
    rw [hsfx, htr]
    simp only [hMne, Bool.false_eq_true, if_false]
  have hacc : (suffixEntries accounts sfx ctx.amount).map (fun e => e.account)
      = suffixTargets accounts sfx := by
    unfold suffixEntries
    rw [hAdj]
    unfold recalculatedAccounts suffixMatching
    simp only [List.map_map]
    show List.map (fun a : BAccount => a) (suffixTargets accounts sfx)
        = suffixTargets accounts sfx
    simp
  have hlen : (suffixEntries accounts sfx ctx.amount).length
      = (suffixTargets accounts sfx).length := by
    unfold suffixEntries
    rw [hAdj]
    unfold recalculatedAccounts suffixMatching
    simp
  have hamounts : (suffixEntries accounts sfx ctx.amount).map (fun e => e.amount)
      = (suffixMatching accounts sfx).map
          (fun p => JNum.num (ctx.amount * (p.2 / sumOfOriginal accounts sfx))) := by
    unfold suffixEntries
    rw [hAdj, recalculatedAccounts_num accounts sfx hsum, List.map_map,
      List.map_map]
    apply List.map_congr_left
    intro p _
    show jmul (JNum.num ctx.amount)
        (jdiv (JNum.num (p.2 / sumOfOriginal accounts sfx * 100)) (JNum.num 100))
      = JNum.num (ctx.amount * (p.2 / sumOfOriginal accounts sfx))
    rw [jdiv_num _ 100 (by norm_num), jmul_num]
    congr 1
    rw [mul_div_assoc, div_self (by norm_num : (100 : ℚ) ≠ 0), mul_one]
  have hsumAmt : jsum ((suffixEntries accounts sfx ctx.amount).map
      (fun e => e.amount)) = JNum.num ctx.amount := by
    rw [hamounts]
    rw [show (fun p : BAccount × ℚ =>
          JNum.num (ctx.amount * (p.2 / sumOfOriginal accounts sfx)))
        = JNum.num ∘ ((fun q : ℚ => ctx.amount * (q / sumOfOriginal accounts sfx))
            ∘ (fun p : BAccount × ℚ => p.2))
        from rfl]
    rw [← List.map_map, ← List.map_map, jsum_map_num]
    congr 1
    rw [sum_map_mul_div]
    show ctx.amount * (sumOfOriginal accounts sfx / sumOfOriginal accounts sfx)
        = ctx.amount
    rw [div_self hsum, mul_one]
  refine ⟨by rw [hres], by rw [hres]; exact hsumAmt,
    ⟨suffixEntries accounts sfx ctx.amount, by rw [hres], hlen, hacc, ?_, hsumAmt⟩, ?_⟩
  · intro a hnot
    rw [hacc]
    exact hnot
  · intro a p r rest hr
    unfold foldResidualIntoFirst
    rw [if_pos hr]

/-- The bucket book of the concrete suffix scenario. -/
def sfxAccounts : List BAccount :=
  [ { name := "Car LONG", normalizedName := "car_long", type := AccountType.ASSET,
      percentage := some 60, savings := none, groups := [], balance := 0 },
    { name := "House LONG", normalizedName := "house_long", type := AccountType.ASSET,
      percentage := some 20, savings := none, groups := [], balance := 0 },
    { name := "Car SHORT", normalizedName := "car_short", type := AccountType.ASSET,
      percentage := some 40, savings := none, groups := [], balance := 0 },
    { name := "Other", normalizedName := "other", type := AccountType.ASSET,
      percentage := some 0, savings := none, groups := [], balance := 0 },
    { name := "Savings", normalizedName := "savings", type := AccountType.INCOMING,
      percentage := none, savings := none, groups := [], balance := 0 } ]

/-- A deposit context carrying suffix `LONG` and amount 1000. -/
def sfxCtx : SavingsContext :=
  { bucketBookId := "bb", bucketHashtag := none, bucketIncomeAcc := "Savings",
    bucketWithdrawalAcc := "Withdrawal", amount := 1000, transactionId := "TX1",
    description := "d", date := "2026-01-01", fromAccount := "A", toAccount := "B",
    bucketOverride := none, direction := Direction.deposit,
    suffix := some "LONG", savingsAccountName := "RDB LONG", savingsAccountId := "id1",
    savingsAccountNormalizedName := "rdb_long", savingsGroupName := none,
    isInitialization := false }

/-- Witness for the amended C1: suffix `LONG` matches two of the five
accounts and the two created entries sum exactly to the 1000-unit amount. -/
theorem suffixDistribution_amended_witness :
    (distributeToSuffixBuckets sfxAccounts sfxCtx).success = true
    ∧ (distributeToSuffixBuckets sfxAccounts sfxCtx).totalDistributed
        = JNum.num sfxCtx.amount
    ∧ (∃ entries, (distributeToSuffixBuckets sfxAccounts sfxCtx).transactions = some entries
        ∧ entries.length = (suffixTargets sfxAccounts "LONG").length
        ∧ entries.map (fun e => e.account) = suffixTargets sfxAccounts "LONG"
        ∧ (∀ a : BAccount, a ∉ suffixTargets sfxAccounts "LONG" →
            a ∉ entries.map (fun e => e.account))
        ∧ jsum (entries.map (fun e => e.amount)) = JNum.num sfxCtx.amount)
    ∧ (∀ (a : BAccount) (p r : JNum) (rest : List (BAccount × JNum)),
        jgt (jabs r) (JNum.num (1 / 10000)) = true →
        foldResidualIntoFirst ((a, p) :: rest) r = (a, jadd p r) :: rest) :=
  suffixDistribution_amended sfxAccounts sfxCtx "LONG" rfl (by decide) (by decide)
    (by
      have h1 : (suffixMatching sfxAccounts "LONG").map (fun p => p.2) = [60, 20] := by
        decide
      unfold sumOfOriginal
      rw [h1]
      norm_num [List.sum_cons, List.sum_nil])

/-- A bucket account matching suffix `LONG` with a configured share of 0%. -/
def czAccount : BAccount :=
  { name := "Goal LONG", normalizedName := "goal_long", type := AccountType.ASSET,
    percentage := some 0, savings := none, groups := [], balance := 0 }

/--
**C1, counterexample to the claim as stated.**  The context `sfxCtx` (suffix
`LONG`, amount 1000) matches exactly K = 1 bucket account, `Goal LONG` with
percentage 0.  The renormalizing division is `0/0 = NaN`, the residual test
`Math.abs(NaN) > 0.0001` is false so nothing is folded, and the single
created entry's amount — and the distributed total — is `NaN`: the sum of the
K entry amounts does not equal the context amount.
-/
theorem suffixDistribution_counterexample :
    suffixTargets [czAccount] "LONG" = [czAccount]
    ∧ (distributeToSuffixBuckets [czAccount] sfxCtx).success = true
    ∧ (distributeToSuffixBuckets [czAccount] sfxCtx).transactionCount = 1
    ∧ (distributeToSuffixBuckets [czAccount] sfxCtx).transactions
        = some [{ account := czAccount, amount := JNum.nan }]
    ∧ (distributeToSuffixBuckets [czAccount] sfxCtx).totalDistributed = JNum.nan
    ∧ (distributeToSuffixBuckets [czAccount] sfxCtx).totalDistributed
        ≠ JNum.num sfxCtx.amount := by
  have h1 : suffixMatching [czAccount] "LONG" = [(czAccount, 0)] := by decide
  have hS : sumOfOriginal [czAccount] "LONG" = 0 := by
    unfold sumOfOriginal
    rw [h1]
    simp
  have h2 : recalculatedAccounts [czAccount] "LONG" = [(czAccount, JNum.nan)] := by
    unfold recalculatedAccounts
    rw [h1, hS]
    simp only [List.map_cons, List.map_nil]
    have hd : jdiv (JNum.num 0) (JNum.num 0) = JNum.nan := by
      show (if (0 : ℚ) = 0 then
          if (0 : ℚ) = 0 then JNum.nan else if 0 < (0 : ℚ) then JNum.pinf else JNum.ninf
        else JNum.num (0 / 0)) = JNum.nan
      rw [if_pos rfl, if_pos rfl]
    rw [hd]
    rfl
  have h3 : sumRecalculated [czAccount] "LONG" = JNum.nan := by
    unfold sumRecalculated
    rw [h2]
    rfl
  have h4 : adjustedAccounts [czAccount] "LONG" = [(czAccount, JNum.nan)] := by
    unfold adjustedAccounts
    rw [h2, h3]
    unfold foldResidualIntoFirst
    have hc : jgt (jabs (jsub (JNum.num 100) JNum.nan)) (JNum.num (1 / 10000))
        = false := rfl
    simp only [hc, Bool.false_eq_true, if_false]
  have h5 : suffixEntries [czAccount] "LONG" sfxCtx.amount
      = [{ account := czAccount, amount := JNum.nan }] := by
    unfold suffixEntries
    rw [h4]
    rfl
  have htr : truthy sfxCtx.suffix = some "LONG" := rfl
  have hMne : (suffixMatching [czAccount] "LONG").isEmpty = false := by
    rw [h1]
    rfl
  have hres : distributeToSuffixBuckets [czAccount] sfxCtx =
      { success := true,
        transactionCount := (suffixEntries [czAccount] "LONG" sfxCtx.amount).length,
        totalDistributed :=
          jsum ((suffixEntries [czAccount] "LONG" sfxCtx.amount).map
            (fun e => e.amount)),
        skipped := none, error := none,
        transactions := some (suffixEntries [czAccount] "LONG" sfxCtx.amount) } := by
    unfold distributeToSuffixBuckets
    rw [htr]
    simp only [hMne, Bool.false_eq_true, if_false]
  refine ⟨by decide, by rw [hres], ?_, ?_, ?_, ?_⟩
  · rw [hres]
    show (suffixEntries [czAccount] "LONG" sfxCtx.amount).length = 1
    rw [h5]
    rfl
  · rw [hres]
    show some (suffixEntries [czAccount] "LONG" sfxCtx.amount)
        = some [{ account := czAccount, amount := JNum.nan }]
    rw [h5]
  · rw [hres]
    show jsum ((suffixEntries [czAccount] "LONG" sfxCtx.amount).map
        (fun e => e.amount)) = JNum.nan
    rw [h5]
    rfl
  · rw [hres]
    show jsum ((suffixEntries [czAccount] "LONG" sfxCtx.amount).map
        (fun e => e.amount)) ≠ JNum.num sfxCtx.amount
    rw [h5]
    intro hcon
    exact JNum.noConfusion hcon

/-! ### Trash verification -/

/-- Observable outcome of `verifyTransactionsTrashed`: how many check passes
ran and which ids were still pending (only logged) at exit. -/
structure VerifyOutcome where
  checks : Nat
  remaining : List String
deriving DecidableEq, Repr

/--
The retry loop of `verifyTransactionsTrashed` (`src/bucket.ts`).  `fetch rc i`
models `book.getTransaction(i).isTrashed()` as observed during check pass
`rc` (`none` when the store cannot resolve the id); an id stays pending when
the transaction exists and is not yet trashed.  The fuel `n` is
`maxRetries + 1 - rc`, matching the loop guard `retryCount <= maxRetries`.
-/
def verifyLoop (fetch : Nat → String → Option Bool) :
    Nat → Nat → List String → VerifyOutcome
  | 0, _, pending => { checks := 0, remaining := pending }
  | n + 1, rc, pending =>
    if pending.isEmpty then { checks := 0, remaining := pending }
    else
      let stillPending := pending.filter (fun i => fetch rc i == some false)
      if stillPending.isEmpty then { checks := 1, remaining := [] }
      else
        let r := verifyLoop fetch n (rc + 1) stillPending
        { checks := r.checks + 1, remaining := r.remaining }

/--
`verifyTransactionsTrashed` from `src/bucket.ts`: no-op on an empty list,
otherwise run the bounded retry loop.  The `Except` shape records that the
function can only return normally; stragglers are reported through
`remaining`, never as an error.
-/
def verifyTransactionsTrashed (fetch : Nat → String → Option Bool)
    (transactionIds : List String) (maxRetries : Nat) : Except String VerifyOutcome :=
  if transactionIds.isEmpty then Except.ok { checks := 0, remaining := [] }
  else Except.ok (verifyLoop fetch (maxRetries + 1) 0 transactionIds)

theorem verifyLoop_checks_le (fetch : Nat → String → Option Bool) :
    ∀ n rc pending, (verifyLoop fetch n rc pending).checks ≤ n := by
  intro n
  induction n with
  | zero => intro rc pending; simp [verifyLoop]
  | succ n ih =>
    intro rc pending
    unfold verifyLoop
    by_cases hp : pending.isEmpty
    · simp [hp]
    · simp only [hp, Bool.false_eq_true, if_false]
      by_cases hs : (pending.filter (fun i => fetch rc i == some false)).isEmpty
      · simp [hs]
      · simp only [hs, Bool.false_eq_true, if_false]
        have := ih (rc + 1) (pending.filter (fun i => fetch rc i == some false))
        omega

theorem verifyLoop_remaining_subset (fetch : Nat → String → Option Bool) :
    ∀ n rc pending, (verifyLoop fetch n rc pending).remaining ⊆ pending := by
  intro n
  induction n with
  | zero => intro rc pending; simp [verifyLoop]
  | succ n ih =>
    intro rc pending
    unfold verifyLoop
    by_cases hp : pending.isEmpty
    · simp [hp]
    · simp only [hp, Bool.false_eq_true, if_false]
      by_cases hs : (pending.filter (fun i => fetch rc i == some false)).isEmpty
      · simp [hs]
      · simp only [hs, Bool.false_eq_true, if_false]
        intro x hx
        have hx2 := ih (rc + 1) (pending.filter (fun i => fetch rc i == some false)) hx
        exact List.mem_of_mem_filter hx2

/--
**C7.** `verifyTransactionsTrashed` always terminates after at most
`maxRetries` retry rounds beyond the initial check (at most `maxRetries + 1`
check passes) and never reports a failure to its caller: it returns normally,
with still-untrashed ids only carried in the logged `remaining` list.
-/
theorem verifyTrashed_bounded (fetch : Nat → String → Option Bool)
    (transactionIds : List String) (maxRetries : Nat) :
    (∃ o, verifyTransactionsTrashed fetch transactionIds maxRetries = Except.ok o
      ∧ o.checks ≤ maxRetries + 1)
    ∧ ∀ e, verifyTransactionsTrashed fetch transactionIds maxRetries
        ≠ Except.error e := by
  constructor
  · unfold verifyTransactionsTrashed
    by_cases h : transactionIds.isEmpty
    · exact ⟨{ checks := 0, remaining := [] }, by rw [if_pos h], by simp⟩
    · refine ⟨verifyLoop fetch (maxRetries + 1) 0 transactionIds, by rw [if_neg h], ?_⟩
      exact verifyLoop_checks_le fetch (maxRetries + 1) 0 transactionIds
  · intro e
    unfold verifyTransactionsTrashed
    by_cases h : transactionIds.isEmpty
    · rw [if_pos h]; intro hc; cases hc
    · rw [if_neg h]; intro hc; cases hc

/--
**C10.** An entry whose id the store cannot resolve (`fetch 0 i = none`) is
dropped from the pending set on the first check pass, never appears among the
ids reported as still not trashed, and — if every id is unresolvable — no
retry round is triggered at all.
-/
theorem verifyTrashed_unresolvable (fetch : Nat → String → Option Bool)
    (transactionIds : List String) (maxRetries : Nat) (tid : String)
    (h0 : fetch 0 tid = none) :
    tid ∉ transactionIds.filter (fun j => fetch 0 j == some false)
    ∧ (∀ o, verifyTransactionsTrashed fetch transactionIds maxRetries = Except.ok o →
        tid ∉ o.remaining)
    ∧ ((∀ j ∈ transactionIds, fetch 0 j = none) →
        ∃ o, verifyTransactionsTrashed fetch transactionIds maxRetries = Except.ok o
          ∧ o.checks ≤ 1 ∧ o.remaining = []) := by
  have hnotf : tid ∉ transactionIds.filter (fun j => fetch 0 j == some false) := by
    intro hmem
    have := List.of_mem_filter hmem
    rw [h0] at this
    cases this
  refine ⟨hnotf, ?_, ?_⟩
  · intro o ho hmem
    unfold verifyTransactionsTrashed at ho
    by_cases h : transactionIds.isEmpty
    · rw [if_pos h] at ho
      cases ho
      cases hmem
    · rw [if_neg h] at ho
      cases ho
      unfold verifyLoop at hmem
      rw [if_neg (by simpa using h)] at hmem
      by_cases hs : (transactionIds.filter (fun i => fetch 0 i == some false)).isEmpty
      · simp only [hs, if_true] at hmem
        cases hmem
      · simp only [hs, Bool.false_eq_true, if_false] at hmem
        have hsub := verifyLoop_remaining_subset fetch maxRetries 1
          (transactionIds.filter (fun i => fetch 0 i == some false))
        exact hnotf (hsub hmem)
  · intro hall
    have hfilter : transactionIds.filter (fun j => fetch 0 j == some false) = [] := by
      rw [List.filter_eq_nil_iff]
      intro j hj
      rw [hall j hj]
      simp
    unfold verifyTransactionsTrashed
    by_cases h : transactionIds.isEmpty
    · rw [if_pos h]
      exact ⟨{ checks := 0, remaining := [] }, rfl, by simp, rfl⟩
    · rw [if_neg h]
      refine ⟨verifyLoop fetch (maxRetries + 1) 0 transactionIds, rfl, ?_, ?_⟩
      · unfold verifyLoop
        rw [if_neg (by simpa using h), hfilter]
        simp
      · unfold verifyLoop
        rw [if_neg (by simpa using h), hfilter]
        simp

/-- The fetch oracle of the concrete C10 scenario: `T1` never resolves, `T2`
exists untrashed. -/
def vFetch : Nat → String → Option Bool :=
  fun _ j => if j = "T2" then some false else none

/-- Witness for C10 at a concrete input: id `T1` is unresolvable and is never
reported. -/
theorem verifyTrashed_unresolvable_witness :
    "T1" ∉ ["T1", "T2"].filter (fun j => vFetch 0 j == some false)
    ∧ (∀ o, verifyTransactionsTrashed vFetch ["T1", "T2"] 5 = Except.ok o →
        "T1" ∉ o.remaining)
    ∧ ((∀ j ∈ ["T1", "T2"], vFetch 0 j = none) →
        ∃ o, verifyTransactionsTrashed vFetch ["T1", "T2"] 5 = Except.ok o
          ∧ o.checks ≤ 1 ∧ o.remaining = []) :=
  verifyTrashed_unresolvable vFetch ["T1", "T2"] 5 "T1" (by decide)

/-! ### Transaction matching by GL id -/

/-- A stored transaction as the matcher reads it: its id and its optional
remote identifier list. -/
structure BTx where
  txid : String
  remoteIds : Option (List String)
deriving DecidableEq, Repr

/-- Whether a transaction carries at least one remote id starting with the
prefix (the inner loop of `findBucketTransactionsByGlId`; an absent
`remoteIds` list is skipped). -/
def txMatches (pfx : String) (tx : BTx) : Bool :=
  match tx.remoteIds with
  | none => false
  | some ids => ids.any (fun r => jsStartsWith r pfx)

/-- JavaScript truthiness of the `expectedCount` optional number: `undefined`
and `0` are falsy. -/
def expectedCountStop (ec : Option Nat) (found : Nat) : Bool :=
  match ec with
  | none => false
  | some k => (k != 0) && decide (found ≥ k)

/-- Scan one page: append each matching transaction once (breaking out of the
remote-id loop at the first hit) and return early when the expected count is
reached. -/
def scanPage (pfx : String) (ec : Option Nat) :
    List BTx → List BTx → List BTx × Bool
  | [], acc => (acc, false)
  | tx :: rest, acc =>
    if txMatches pfx tx then
      if expectedCountStop ec (acc ++ [tx]).length then (acc ++ [tx], true)
      else scanPage pfx ec rest (acc ++ [tx])
    else scanPage pfx ec rest acc

/--
The page loop of `findBucketTransactionsByGlId`: stop on an empty page or a
missing cursor (modelled as the page list running out), return early when the
expected count is reached.  The second component counts the additional page
fetches issued by the loop.
-/
def findGo (pfx : String) (ec : Option Nat) :
    List (List BTx) → List BTx → List BTx × Nat
  | [], acc => (acc, 0)
  | page :: rest, acc =>
    if page.isEmpty then (acc, 0)
    else
      match scanPage pfx ec page acc with
      | (acc2, true) => (acc2, 0)
      | (acc2, false) =>
        if rest.isEmpty then (acc2, 0)
        else
          let r := findGo pfx ec rest acc2
          (r.1, r.2 + 1)

/--
`findBucketTransactionsByGlId` from `src/bucket.ts`, over the store's paged
result set for the hashtag/date query.  Returns the matches and the total
number of page requests issued (the initial `listTransactions` call plus one
per cursor follow-up).
-/
def findBucketTransactionsByGlId (pages : List (List BTx))
    (glTransactionId : String) (ec : Option Nat) : List BTx × Nat :=
  let r := findGo (glTransactionId ++ "_") ec pages []
  (r.1, r.2 + 1)

theorem scanPage_none (pfx : String) :
    ∀ (page acc : List BTx),
      scanPage pfx none page acc = (acc ++ page.filter (txMatches pfx), false) := by
  intro page
  induction page with
  | nil => intro acc; simp [scanPage]
  | cons tx rest ih =>
    intro acc
    by_cases hm : txMatches pfx tx
    · simp only [scanPage, hm, if_true, expectedCountStop, Bool.false_eq_true, if_false]
      rw [ih (acc ++ [tx]), List.filter_cons_of_pos hm]
      simp
    · simp only [scanPage, hm, Bool.false_eq_true, if_false]
      rw [ih acc, List.filter_cons_of_neg (by simpa using hm)]

theorem findGo_none (pfx : String) :
    ∀ (pages : List (List BTx)) (acc : List BTx),
      (∀ p ∈ pages.dropLast, p ≠ []) →
      (findGo pfx none pages acc).1 = acc ++ pages.flatten.filter (txMatches pfx) := by
  intro pages
  induction pages with
  | nil => intro acc h; simp [findGo]
  | cons page rest ih =>
    intro acc h
    by_cases hp : page.isEmpty
    · have hpe : page = [] := by simpa using hp
      cases rest with
      | nil => simp [findGo, hp, hpe]
      | cons q qs =>
        exfalso
        apply h page _ hpe
        rw [List.dropLast_cons₂]
        exact List.mem_cons_self _ _
    · simp only [findGo, hp, Bool.false_eq_true, if_false]
      rw [scanPage_none]
      cases rest with
      | nil => simp [findGo]
      | cons q qs =>
        have hrest : ((q :: qs) : List (List BTx)).isEmpty = false := rfl
        simp only [hrest, Bool.false_eq_true, if_false]
        have ih2 := ih (acc ++ page.filter (txMatches pfx))
          (by
            intro p hmem
            apply h p
            rw [List.dropLast_cons₂]
            exact List.mem_cons_of_mem _ hmem)
        simp only [ih2]
        simp [List.filter_append]

theorem scanPage_some (pfx : String) (k : Nat) (hk : 1 ≤ k) :
    ∀ (page acc : List BTx), acc.length < k →
      scanPage pfx (some k) page acc =
        if k ≤ (acc ++ page.filter (txMatches pfx)).length
        then ((acc ++ page.filter (txMatches pfx)).take k, true)
        else (acc ++ page.filter (txMatches pfx), false) := by
  intro page
  induction page with
  | nil =>
    intro acc hacc
    rw [if_neg (by simp; omega)]
    simp [scanPage]
  | cons tx rest ih =>
    intro acc hacc
    by_cases hm : txMatches pfx tx
    · rw [List.filter_cons_of_pos hm]
      by_cases hstop : k ≤ acc.length + 1
      · have hkeq : k = acc.length + 1 := by omega
        have hstopb : expectedCountStop (some k) (acc ++ [tx]).length = true := by
          unfold expectedCountStop
          simp only [List.length_append, List.length_cons, List.length_nil]
          rw [Bool.and_eq_true]
          constructor
          · simpa using (by omega : k ≠ 0)
          · rw [decide_eq_true_eq]; omega
        simp only [scanPage, hm, if_true, hstopb]
        rw [if_pos (by simp; omega)]
        have htake : (acc ++ tx :: rest.filter (txMatches pfx)).take k = acc ++ [tx] := by
          rw [List.take_append_eq_append_take,
            List.take_of_length_le (by omega : acc.length ≤ k)]
          congr 1
          rw [show k - acc.length = 1 by omega]
          rfl
        rw [htake]
      · have hstopb : expectedCountStop (some k) (acc ++ [tx]).length = false := by
          unfold expectedCountStop
          simp only [List.length_append, List.length_cons, List.length_nil]
          rw [Bool.and_eq_false_iff]
          right
          rw [decide_eq_false_iff_not]
          omega
        simp only [scanPage, hm, if_true, hstopb, Bool.false_eq_true, if_false]
        have ih2 := ih (acc ++ [tx]) (by simp; omega)
        rw [ih2]
        have hassoc : acc ++ [tx] ++ rest.filter (txMatches pfx)
            = acc ++ tx :: rest.filter (txMatches pfx) := by simp
        rw [hassoc]
    · rw [List.filter_cons_of_neg (by simpa using hm)]
      simp only [scanPage, hm, Bool.false_eq_true, if_false]
      exact ih acc hacc

theorem findGo_stop (pfx : String) (k : Nat) (hk : 1 ≤ k) :
    ∀ (p1 : List (List BTx)) (p2 : List (List BTx)) (acc : List BTx),
      acc.length < k →
      (∀ p ∈ p1, p ≠ []) →
      k ≤ (acc ++ p1.flatten.filter (txMatches pfx)).length →
      findGo pfx (some k) (p1 ++ p2) acc = findGo pfx (some k) p1 acc
      ∧ (findGo pfx (some k) p1 acc).1
          = (acc ++ p1.flatten.filter (txMatches pfx)).take k := by
  intro p1
  induction p1 with
  | nil =>
    intro p2 acc hacc hall hmatch
    exfalso
    simp at hmatch
    omega
  | cons page rest ih =>
    intro p2 acc hacc hall hmatch
    have hpne : page ≠ [] := hall page (List.mem_cons_self _ _)
    have hp : page.isEmpty = false := by
      cases page with
      | nil => exact absurd rfl hpne
      | cons a l => rfl
    have hjoin : ((page :: rest).flatten).filter (txMatches pfx)
        = page.filter (txMatches pfx) ++ rest.flatten.filter (txMatches pfx) := by
      simp [List.filter_append]
    rw [hjoin] at hmatch
    rw [List.cons_append]
    simp only [findGo, hp, Bool.false_eq_true, if_false]
    rw [scanPage_some pfx k hk page acc hacc]
    by_cases hfull : k ≤ (acc ++ page.filter (txMatches pfx)).length
    · rw [if_pos hfull]
      refine ⟨rfl, ?_⟩
      show (acc ++ page.filter (txMatches pfx)).take k
          = (acc ++ ((page :: rest).flatten.filter (txMatches pfx))).take k
      rw [hjoin, ← List.append_assoc, List.take_append_of_le_length hfull]
    · rw [if_neg hfull]
      have hacc2 : (acc ++ page.filter (txMatches pfx)).length < k := by omega
      have hmatch2 : k ≤ ((acc ++ page.filter (txMatches pfx))
          ++ rest.flatten.filter (txMatches pfx)).length := by
        simp only [List.length_append] at hmatch ⊢
        omega
      cases rest with
      | nil =>
        exfalso
        simp at hmatch2
        simp only [List.length_append] at hacc2
        omega
      | cons q qs =>
        have hrest2 : ((q :: qs ++ p2) : List (List BTx)).isEmpty = false := rfl
        have hrest3 : ((q :: qs) : List (List BTx)).isEmpty = false := rfl
        simp only [hrest2, hrest3, Bool.false_eq_true, if_false]
        have ih2 := ih p2 (acc ++ page.filter (txMatches pfx)) hacc2
          (fun p hmem => hall p (List.mem_cons_of_mem _ hmem)) hmatch2
        refine ⟨?_, ?_⟩
        · rw [ih2.1]
        · rw [ih2.2]
          show ((acc ++ page.filter (txMatches pfx))
              ++ (q :: qs).flatten.filter (txMatches pfx)).take k
            = (acc ++ ((page :: q :: qs).flatten.filter (txMatches pfx))).take k
          rw [hjoin, ← List.append_assoc]

/--
**C2 (amended).** Provided no page before the last is empty (the loop stops at
an empty page before reading the cursor), `findBucketTransactionsByGlId`
without `expectedCount` returns exactly the transactions having at least one
remote id starting with the GL prefix, each occurrence contributing at most
once; and when `expectedCount = k ≥ 1` matches lie within a leading span of
the pages, the call behaves exactly as if the later pages did not exist (so
none of them is requested) and returns the first `k` matches.
-/
theorem findByGlId_spec (pages : List (List BTx)) (gid : String) :
    ((∀ p ∈ pages.dropLast, p ≠ []) →
      (findBucketTransactionsByGlId pages gid none).1
        = pages.flatten.filter (txMatches (gid ++ "_")))
    ∧ (∀ (p1 p2 : List (List BTx)) (k : Nat),
        pages = p1 ++ p2 → 1 ≤ k → (∀ p ∈ p1, p ≠ []) →
        k ≤ (p1.flatten.filter (txMatches (gid ++ "_"))).length →
        findBucketTransactionsByGlId pages gid (some k)
          = findBucketTransactionsByGlId p1 gid (some k)
        ∧ (findBucketTransactionsByGlId p1 gid (some k)).1
          = (p1.flatten.filter (txMatches (gid ++ "_"))).take k) := by
  constructor
  · intro h
    unfold findBucketTransactionsByGlId
    rw [findGo_none (gid ++ "_") pages [] h]
    simp
  · intro p1 p2 k hpages hk hall hmatch
    subst hpages
    have h := findGo_stop (gid ++ "_") k hk p1 p2 []
      (by simp only [List.length_nil]; omega) hall
      (by simpa using hmatch)
    unfold findBucketTransactionsByGlId
    constructor
    · rw [h.1]
    · rw [h.2]
      simp

/-- A transaction carrying a remote id with the `TX1_` prefix, used by the C2
counterexample and witness. -/
def t1a : BTx := { txid := "A", remoteIds := some ["TX1_a"] }

def t1b : BTx := { txid := "B", remoteIds := some ["TX1_b"] }

def t2x : BTx := { txid := "X", remoteIds := some ["TX2_x"] }

def t1c : BTx := { txid := "C", remoteIds := some ["TX1_c"] }

/--
**C2, counterexample to the claim as stated.**  Over the paged result set
`[[], [t1a]]` — an empty first page followed by a page holding a matching
transaction — the matcher returns nothing even though `t1a` carries a remote
id starting with `TX1_`: the loop breaks on the empty page before reading the
cursor, so it does not keep requesting pages while a cursor is returned.
-/
theorem findByGlId_counterexample :
    (findBucketTransactionsByGlId [[], [t1a]] "TX1" none).1 = []
    ∧ txMatches ("TX1" ++ "_") t1a = true
    ∧ ([[], [t1a]] : List (List BTx)).flatten.filter (txMatches ("TX1" ++ "_"))
        = [t1a] := by
  refine ⟨rfl, by decide, by decide⟩

/-- The two-page result set of the spec's matcher scenario. -/
def c2pages : List (List BTx) := [[t1a, t1b, t2x], [t1c]]

/-- Witness for C2 on the spec's scenario: without `expectedCount` all three
`TX1` matches are returned across the page boundary; with `expectedCount = 2`
the call returns the first two matches after a single page request. -/
theorem findByGlId_spec_witness :
    (findBucketTransactionsByGlId c2pages "TX1" none).1 = [t1a, t1b, t1c]
    ∧ findBucketTransactionsByGlId c2pages "TX1" (some 2) = ([t1a, t1b], 1) := by
  constructor
  · rw [(findByGlId_spec c2pages "TX1").1 (by decide)]
    decide
  · have h2 := (findByGlId_spec c2pages "TX1").2 [[t1a, t1b, t2x]] [[t1c]] 2
      rfl (by decide) (by decide) (by decide)
    rw [h2.1]
    decide

/-! ### Savings detection (webhook payload) -/

/-- A group as it appears in the webhook payload. -/
structure WGroup where
  name : String
  savings : Option String
deriving DecidableEq, Repr

/-- An account as it appears in the webhook payload. -/
structure WAccount where
  id : String
  name : String
  normalizedName : String
  savings : Option String
  groups : List WGroup
deriving DecidableEq, Repr

/-- The transaction of the webhook payload (amount as its parsed rational
value; `bucket` is the transaction's `bucket` property). -/
structure WTransaction where
  id : String
  amount : ℚ
  description : String
  date : String
  creditAccount : WAccount
  debitAccount : WAccount
  bucket : Option String
deriving DecidableEq, Repr

/-- A book of the payload's collection, with the configuration properties the
detector reads. -/
structure WBook where
  id : String
  bucket_book_id : Option String
  bucket_hashtag : Option String
  bucket_income_acc : Option String
  bucket_withdrawal_acc : Option String
deriving DecidableEq, Repr

/-- The webhook payload: the GL book, its collection's books, and the
transaction. -/
structure WPayload where
  book : WBook
  collectionBooks : List WBook
  transaction : WTransaction
deriving DecidableEq, Repr

/-- `accountHasSavings` from `src/webhook.ts`. -/
def accountHasSavings (account : WAccount) : Bool :=
  account.savings == some "true"

/-- `accountHasSavingsFalse` from `src/webhook.ts`. -/
def accountHasSavingsFalse (account : WAccount) : Bool :=
  account.savings == some "false"

/-- `findSavingsGroup` from `src/webhook.ts`: the first group carrying
`savings:"true"`. -/
def findSavingsGroup (account : WAccount) : Option WGroup :=
  account.groups.find? (fun group => group.savings == some "true")

/-- The group search guarded by the explicit `savings:"false"` skip
(`if (!accountHasSavingsFalse(acc)) savingsGroup = findSavingsGroup(acc)`). -/
def groupSelection (account : WAccount) : Option WGroup :=
  if accountHasSavingsFalse account then none else findSavingsGroup account

/-- `findBucketBook` from `src/webhook.ts`. -/
def findBucketBook (p : WPayload) (bucketBookId : String) : Option WBook :=
  p.collectionBooks.find? (fun book => book.id == bucketBookId)

/-- The group-scan fallback of the suffix derivation: first group whose name
yields a suffix. -/
def firstGroupSuffix : List WGroup → Option String
  | [] => none
  | g :: gs =>
    match extractSuffix g.name with
    | some s => some s
    | none => firstGroupSuffix gs

/--
`detectSavings` from `src/webhook.ts`.  Returns `none` for "not savings".
The account/direction selection tries the debited account's `savings:"true"`,
then the credited account's, then (unless explicitly `savings:"false"`) the
accounts' groups, debited first.  The suffix is only derived when the
transaction's `bucket` property is falsy.
-/
def detectSavings (p : WPayload) : Option SavingsContext :=
  let transaction := p.transaction
  let creditAccount := transaction.creditAccount
  let debitAccount := transaction.debitAccount
  match truthy p.book.bucket_book_id with
  | none => none
  | some bucketBookId =>
    match findBucketBook p bucketBookId with
    | none => none
    | some bucketBook =>
      let sel : Option (WAccount × Option WGroup × Direction) :=
        if accountHasSavings debitAccount then
          some (debitAccount, none, Direction.deposit)
        else if accountHasSavings creditAccount then
          some (creditAccount, none, Direction.withdrawal)
        else
          match groupSelection debitAccount with
          | some g => some (debitAccount, some g, Direction.deposit)
          | none =>
            match groupSelection creditAccount with
            | some g => some (creditAccount, some g, Direction.withdrawal)
            | none => none
      match sel with
      | none => none
      | some (savingsAccount, savingsGroup, direction) =>
        let bucketOverride := transaction.bucket
        let sfx : Option String :=
          match truthy bucketOverride with
          | some _ => none
          | none =>
            let s1 : Option String :=
              match savingsGroup with
              | some g => extractSuffix g.name
              | none => none
            let s2 : Option String :=
              match s1 with
              | some s => some s
              | none => extractSuffix savingsAccount.name
            match s2 with
            | some s => some s
            | none => firstGroupSuffix savingsAccount.groups
        some {
          bucketBookId := bucketBookId,
          bucketHashtag := bucketBook.bucket_hashtag,
          bucketIncomeAcc := bucketBook.bucket_income_acc.getD "Savings",
          bucketWithdrawalAcc := bucketBook.bucket_withdrawal_acc.getD "Withdrawal",
          amount := transaction.amount,
          transactionId := transaction.id,
          description := transaction.description,
          date := transaction.date,
          fromAccount := creditAccount.name,
          toAccount := debitAccount.name,
          bucketOverride := bucketOverride,
          direction := direction,
          suffix := sfx,
          savingsAccountName := savingsAccount.name,
          savingsAccountId := savingsAccount.id,
          savingsAccountNormalizedName := savingsAccount.normalizedName,
          savingsGroupName := savingsGroup.map (fun g => g.name),
          isInitialization := false }

/--
**C3.** With the bucket book configured and resolvable, `detectSavings`
selects the debited account with direction `deposit` when it carries
`savings:"true"`; else the credited account with `withdrawal` when it does;
else searches groups — debited account first, skipping an account marked
`savings:"false"` — the first group with `savings:"true"` fixing account and
direction the same way; and reports "not savings" when nothing matches.
-/
theorem detectSavings_selection (p : WPayload) (bid : String) (bb : WBook)
    (hbid : truthy p.book.bucket_book_id = some bid)
    (hbb : findBucketBook p bid = some bb) :
    (accountHasSavings p.transaction.debitAccount = true →
      ∃ ctx, detectSavings p = some ctx
        ∧ ctx.savingsAccountId = p.transaction.debitAccount.id
        ∧ ctx.direction = Direction.deposit
        ∧ ctx.savingsGroupName = none)
    ∧ (accountHasSavings p.transaction.debitAccount = false →
       accountHasSavings p.transaction.creditAccount = true →
      ∃ ctx, detectSavings p = some ctx
        ∧ ctx.savingsAccountId = p.transaction.creditAccount.id
        ∧ ctx.direction = Direction.withdrawal
        ∧ ctx.savingsGroupName = none)
    ∧ (∀ g, accountHasSavings p.transaction.debitAccount = false →
       accountHasSavings p.transaction.creditAccount = false →
       groupSelection p.transaction.debitAccount = some g →
      ∃ ctx, detectSavings p = some ctx
        ∧ ctx.savingsAccountId = p.transaction.debitAccount.id
        ∧ ctx.direction = Direction.deposit
        ∧ ctx.savingsGroupName = some g.name)
    ∧ (∀ g, accountHasSavings p.transaction.debitAccount = false →
       accountHasSavings p.transaction.creditAccount = false →
       groupSelection p.transaction.debitAccount = none →
       groupSelection p.transaction.creditAccount = some g →
      ∃ ctx, detectSavings p = some ctx
        ∧ ctx.savingsAccountId = p.transaction.creditAccount.id
        ∧ ctx.direction = Direction.withdrawal
        ∧ ctx.savingsGroupName = some g.name)
    ∧ (accountHasSavings p.transaction.debitAccount = false →
       accountHasSavings p.transaction.creditAccount = false →
       groupSelection p.transaction.debitAccount = none →
       groupSelection p.transaction.creditAccount = none →
       detectSavings p = none) := by
  refine ⟨?_, ?_, ?_, ?_, ?_⟩
  · intro hd
    unfold detectSavings
    simp only [hbid, hbb, hd, if_true]
    exact ⟨_, rfl, rfl, rfl, rfl⟩
  · intro hd hc
    unfold detectSavings
    simp only [hbid, hbb, hd, hc, Bool.false_eq_true, if_false, if_true]
    exact ⟨_, rfl, rfl, rfl, rfl⟩
  · intro g hd hc hg
    unfold detectSavings
    simp only [hbid, hbb, hd, hc, hg, Bool.false_eq_true, if_false]
    exact ⟨_, rfl, rfl, rfl, rfl⟩
  · intro g hd hc hgd hgc
    unfold detectSavings
    simp only [hbid, hbb, hd, hc, hgd, hgc, Bool.false_eq_true, if_false]
    exact ⟨_, rfl, rfl, rfl, rfl⟩
  · intro hd hc hgd hgc
    unfold detectSavings
    simp only [hbid, hbb, hd, hc, hgd, hgc, Bool.false_eq_true, if_false]

/-- The bucket book of the concrete detection scenarios. -/
def c3bb : WBook :=
  { id := "bb", bucket_book_id := none, bucket_hashtag := none,
    bucket_income_acc := none, bucket_withdrawal_acc := none }

/-- A debited account carrying `savings:"true"`, named `RDB LONG`. -/
def c3debit : WAccount :=
  { id := "d1", name := "RDB LONG", normalizedName := "rdb_long",
    savings := some "true", groups := [] }

/-- A credited account without a savings property. -/
def c3credit : WAccount :=
  { id := "c1", name := "Checking", normalizedName := "checking",
    savings := none, groups := [] }

/-- The GL book configuration of the concrete detection scenarios. -/
def c3glBook : WBook :=
  { id := "gl", bucket_book_id := some "bb", bucket_hashtag := none,
    bucket_income_acc := none, bucket_withdrawal_acc := none }

/-- The transaction of the concrete detection scenarios, parameterized by its
`bucket` property. -/
def c3tx (bucket : Option String) : WTransaction :=
  { id := "TX1", amount := 1000, description := "dep", date := "2026-01-01",
    creditAccount := c3credit, debitAccount := c3debit, bucket := bucket }

/-- A deposit payload with the bucket book configured and no transaction
`bucket` property. -/
def c3payload : WPayload :=
  { book := c3glBook, collectionBooks := [c3bb], transaction := c3tx none }

/-- Witness for C3 at the concrete payload `c3payload`. -/
theorem detectSavings_selection_witness :
    (accountHasSavings c3payload.transaction.debitAccount = true →
      ∃ ctx, detectSavings c3payload = some ctx
        ∧ ctx.savingsAccountId = c3payload.transaction.debitAccount.id
        ∧ ctx.direction = Direction.deposit
        ∧ ctx.savingsGroupName = none)
    ∧ (accountHasSavings c3payload.transaction.debitAccount = false →
       accountHasSavings c3payload.transaction.creditAccount = true →
      ∃ ctx, detectSavings c3payload = some ctx
        ∧ ctx.savingsAccountId = c3payload.transaction.creditAccount.id
        ∧ ctx.direction = Direction.withdrawal
        ∧ ctx.savingsGroupName = none)
    ∧ (∀ g, accountHasSavings c3payload.transaction.debitAccount = false →
       accountHasSavings c3payload.transaction.creditAccount = false →
       groupSelection c3payload.transaction.debitAccount = some g →
      ∃ ctx, detectSavings c3payload = some ctx
        ∧ ctx.savingsAccountId = c3payload.transaction.debitAccount.id
        ∧ ctx.direction = Direction.deposit
        ∧ ctx.savingsGroupName = some g.name)
    ∧ (∀ g, accountHasSavings c3payload.transaction.debitAccount = false →
       accountHasSavings c3payload.transaction.creditAccount = false →
       groupSelection c3payload.transaction.debitAccount = none →
       groupSelection c3payload.transaction.creditAccount = some g →
      ∃ ctx, detectSavings c3payload = some ctx
        ∧ ctx.savingsAccountId = c3payload.transaction.creditAccount.id
        ∧ ctx.direction = Direction.withdrawal
        ∧ ctx.savingsGroupName = some g.name)
    ∧ (accountHasSavings c3payload.transaction.debitAccount = false →
       accountHasSavings c3payload.transaction.creditAccount = false →
       groupSelection c3payload.transaction.debitAccount = none →
       groupSelection c3payload.transaction.creditAccount = none →
       detectSavings c3payload = none) :=
  detectSavings_selection c3payload "bb" c3bb (by decide) (by decide)

/-- A payload identical to `c3payload` except that the transaction carries an
empty-string `bucket` property. -/
def c4payload : WPayload :=
  { book := c3glBook, collectionBooks := [c3bb],
    transaction := c3tx (some "") }

/--
**C4, counterexample to the claim as stated.**  The transaction of
`c4payload` carries a `bucket` property (the empty string), yet the produced
context both records that override value and has its suffix populated
(`LONG`, derived from the account name): the code only skips suffix
derivation for a truthy (non-empty) `bucket` value.
-/
theorem detectSavings_override_counterexample :
    c4payload.transaction.bucket.isSome = true
    ∧ (detectSavings c4payload).map (fun ctx => ctx.bucketOverride)
        = some (some "")
    ∧ (detectSavings c4payload).map (fun ctx => ctx.suffix)
        = some (some "LONG") := by
  refine ⟨rfl, by decide, by decide⟩

/--
**C4 (amended).** Whenever the transaction carries a non-empty `bucket`
property and a context is produced, the context's suffix is never populated —
suffix derivation is skipped — and the override is carried verbatim; with an
empty-string `bucket` property the override value is still recorded but
suffix derivation runs.
-/
theorem detectSavings_override_amended (p : WPayload) (ctx : SavingsContext)
    (s : String) (h : detectSavings p = some ctx)
    (hb : p.transaction.bucket = some s) (hs : s.data.isEmpty = false) :
    ctx.suffix = none ∧ ctx.bucketOverride = some s := by
  have hts : truthy (some s) = some s := by
    show (if s.data.isEmpty = true then none else some s) = some s
    rw [hs]
    rfl
  unfold detectSavings at h
  simp only [hb, hts] at h
  split at h
  · exact Option.noConfusion h
  · split at h
    · exact Option.noConfusion h
    · split at h
      · exact Option.noConfusion h
      · rw [Option.some.injEq] at h
        subst h
        exact ⟨rfl, rfl⟩

/-- A payload identical to `c3payload` except for a non-empty transaction
`bucket` property. -/
def c4payloadNE : WPayload :=
  { book := c3glBook, collectionBooks := [c3bb],
    transaction := c3tx (some "Car LONG") }

/-- Witness for the amended C4 at the concrete payload `c4payloadNE`. -/
theorem detectSavings_override_amended_witness :
    (detectSavings c4payloadNE).map (fun ctx => (ctx.suffix, ctx.bucketOverride))
      = some (none, some "Car LONG") := by
  cases hctx : detectSavings c4payloadNE with
  | none => exact absurd hctx (by decide)
  | some ctx =>
    obtain ⟨h1, h2⟩ := detectSavings_override_amended c4payloadNE ctx "Car LONG"
      hctx rfl (by decide)
    simp [h1, h2]
